import Mathlib

/-!
# Verification of the x68kserremote core

Shallow embedding of the x68kserremote driver/service core (X68000 serial
remote drive) and proofs about it.  Each definition is translated from the
C sources:

* `src/driver/serremote.c`   — self-contained serial driver
* `src/driver/remotedrv.c`   — refactored driver core
* `src/service/x68kremote.c` — self-contained host service
* `src/service/remoteserv.c` — refactored host service core
* `src/include/x68kremote.h` — wire structures and Human68k error codes

Bytes are modelled as `Nat` (values < 256); 32-bit machine arithmetic is
made explicit with `% 2^32` where the C code can wrap.
-/

namespace X68kRemote

/-! ## Human68k error codes

Numeric values as listed in `src/include/x68kremote.h`
(`DOS_FILE_NOT_FOUND` … `DOS_FILE_EXISTS`); the service sources refer to
them through the `_DOSE_*` aliases. -/

def DOSE_NOENT : Int := -2
def DOSE_NODIR : Int := -3
def DOSE_MFILE : Int := -4
def DOSE_ISDIR : Int := -5
def DOSE_BADF : Int := -6
def DOSE_NOMEM : Int := -8
def DOSE_ILGMPTR : Int := -9
def DOSE_ILGFMT : Int := -11
def DOSE_ILGARG : Int := -12
def DOSE_ILGFNAME : Int := -13
def DOSE_ILGPARM : Int := -14
def DOSE_ILGDRV : Int := -15
def DOSE_ISCURDIR : Int := -16
def DOSE_NOMORE : Int := -18
def DOSE_RDONLY : Int := -19
def DOSE_EXISTDIR : Int := -20
def DOSE_NOTEMPTY : Int := -21
def DOSE_CANTREN : Int := -22
def DOSE_DISKFULL : Int := -23
def DOSE_DIRFULL : Int := -24
def DOSE_CANTSEEK : Int := -25
def DOSE_EXISTFILE : Int := -80

/-! ## Frame layer (`serin`)

`serin` in `src/driver/serremote.c` (lines 162-195) and
`src/service/x68kremote.c` (lines 126-173) share the same algorithm:
scan for `'Z'`, skip the run of `'Z'`s, require `'X'`, read a big-endian
16-bit length, check it against the caller's buffer, read the payload.
The input byte stream is a `List Nat`; exhausting it models blocking
forever / the receive timeout (`longjmp` on the driver side). -/

/-- The synchronisation byte `'Z'` (0x5A). -/
def zByte : Nat := 90

/-- The frame-start byte `'X'` (0x58). -/
def xByte : Nat := 88

/-- Failure modes of the frame receiver: receive timeout, framing error
(the first non-`'Z'` byte is not `'X'`), payload larger than the
caller-supplied buffer. -/
inductive SerErr where
  | timeout : SerErr
  | framing : SerErr
  | overrun : SerErr
deriving DecidableEq, Repr

/-- Frame receiver, from `serin` in `src/driver/serremote.c:162-195` /
`src/service/x68kremote.c:126-173`.  `buflen` is the caller-supplied
buffer size; on success returns the payload plus the unconsumed rest of
the stream. -/
def serin (buflen : Nat) (input : List Nat) : Except SerErr (List Nat × List Nat) :=
  match input.dropWhile (fun c => c != zByte) with
  | [] => .error .timeout
  | _ :: t =>
    match t.dropWhile (fun c => c == zByte) with
    | [] => .error .timeout
    | c :: t2 =>
      if c ≠ xByte then .error .framing
      else
        match t2 with
        | [] => .error .timeout
        | hi :: t3 =>
          match t3 with
          | [] => .error .timeout
          | lo :: t4 =>
            let size := hi * 256 + lo
            if size > buflen then .error .overrun
            else if t4.length < size then .error .timeout
            else .ok (t4.take size, t4.drop size)

/-- Dropping a prefix on which the predicate holds. -/
theorem dropWhile_append_of_all {p : Nat → Bool} (xs ys : List Nat)
    (h : ∀ x ∈ xs, p x = true) :
    (xs ++ ys).dropWhile p = ys.dropWhile p := by
  induction xs with
  | nil => simp
  | cons a l ih =>
      have ha : p a = true := h a (by simp)
      simp only [List.cons_append, List.dropWhile_cons, ha, if_true]
      exact ih (fun x hx => h x (by simp [hx]))

/-- **C1.** For every incoming byte stream, the frame receiver discards
bytes until a `'Z'` arrives, skips any further run of `'Z'` bytes, and then
requires the next non-`'Z'` byte to be `'X'` (failing with a framing error
otherwise); it then reads a two-byte big-endian payload length, fails if
that length exceeds the caller-supplied buffer, and otherwise reads exactly
the declared number of payload bytes into the buffer. -/
theorem serin_frame_receiver (buflen : Nat) (junk zrun rest payload : List Nat)
    (b hi lo : Nat)
    (hjunk : ∀ x ∈ junk, x ≠ zByte) (hz : ∀ x ∈ zrun, x = zByte)
    (hzne : zrun ≠ []) (hb : b ≠ zByte)
    (hpl : payload.length = hi * 256 + lo) :
    (b ≠ xByte → serin buflen (junk ++ zrun ++ b :: rest) = .error .framing) ∧
    (hi * 256 + lo > buflen →
      serin buflen (junk ++ zrun ++ xByte :: hi :: lo :: (payload ++ rest)) =
        .error .overrun) ∧
    (hi * 256 + lo ≤ buflen →
      serin buflen (junk ++ zrun ++ xByte :: hi :: lo :: (payload ++ rest)) =
        .ok (payload, rest)) := by
  obtain ⟨z, ztail, rfl⟩ : ∃ z ztail, zrun = z :: ztail := by
    cases zrun with
    | nil => exact absurd rfl hzne
    | cons z ztail => exact ⟨z, ztail, rfl⟩
  have hz0 : z = zByte := hz z (by simp)
  subst hz0
  have hztail : ∀ x ∈ ztail, x = zByte := fun x hx => hz x (by simp [hx])
  have h1 : ∀ s : List Nat,
      (junk ++ (zByte :: ztail) ++ s).dropWhile (fun c => c != zByte) =
        zByte :: (ztail ++ s) := by
    intro s
    rw [List.append_assoc,
      dropWhile_append_of_all junk _ (fun x hx => by simpa using hjunk x hx)]
    simp [List.dropWhile_cons]
  have h2 : ∀ (b' : Nat) (s : List Nat), b' ≠ zByte →
      (ztail ++ b' :: s).dropWhile (fun c => c == zByte) = b' :: s := by
    intro b' s hb'
    rw [dropWhile_append_of_all ztail _ (fun x hx => by simp [hztail x hx])]
    simp [List.dropWhile_cons, hb']
  refine ⟨fun hbx => ?_, fun hover => ?_, fun hfits => ?_⟩
  · simp only [serin, h1, h2 b rest hb, hbx, if_true, ne_eq, not_true_eq_false,
      if_false, ite_not]
  · have hxz : xByte ≠ zByte := by decide
    simp only [serin, h1, h2 xByte (hi :: lo :: (payload ++ rest)) hxz]
    simp [hover]
  · have hxz : xByte ≠ zByte := by decide
    simp only [serin, h1, h2 xByte (hi :: lo :: (payload ++ rest)) hxz]
    have hnover : ¬ hi * 256 + lo > buflen := not_lt.mpr hfits
    have hlen : ¬ (payload ++ rest).length < hi * 256 + lo := by
      simp [List.length_append, hpl]
    simp only [ne_eq, not_true_eq_false, if_false, hnover, hlen, if_false]
    rw [List.take_left' hpl, List.drop_left' hpl]

/-- Witness for C1: the receiver applied to a concrete stream with two
junk bytes, two sync bytes, `'X'`, length 3 and payload `[7,8,9]`. -/
theorem serin_frame_receiver_witness :
    serin 4 ([1, 2] ++ [zByte, zByte] ++ xByte :: 0 :: 3 :: ([7, 8, 9] ++ [5])) =
      .ok ([7, 8, 9], [5]) :=
  (serin_frame_receiver 4 [1, 2] [zByte, zByte] [5] [7, 8, 9] 65 0 3
    (by decide) (by decide) (by decide) (by decide) (by decide)).2.2 (by decide)

/-! ## Error mapper (`conv_errno`)

From `conv_errno` in `src/service/x68kremote.c:337-387` and
`src/service/remoteserv.c:113-163` (identical), plus the per-operation
`switch (err)` overrides in the operation handlers. -/

/-- The host `errno` values distinguished by `conv_errno`; every other
value falls into the `other` constructor (the switch's `default`). -/
inductive HostErrno where
  | enoent | enotdir | emfile | eisdir | ebadf | enomem | efault
  | enoexec | enametoolong | einval | exdev | eacces | eperm | erofs
  | enotempty | enospc | eoverflow | eexist | other
deriving DecidableEq, Fintype, Repr

/-- Host errno → Human68k error code, from `conv_errno`. -/
def conv_errno (e : HostErrno) : Int :=
  match e with
  | .enoent => DOSE_NOENT
  | .enotdir => DOSE_NODIR
  | .emfile => DOSE_MFILE
  | .eisdir => DOSE_ISDIR
  | .ebadf => DOSE_BADF
  | .enomem => DOSE_NOMEM
  | .efault => DOSE_ILGMPTR
  | .enoexec => DOSE_ILGFMT
  | .enametoolong => DOSE_ILGFNAME
  | .einval => DOSE_ILGPARM
  | .exdev => DOSE_ILGDRV
  | .eacces => DOSE_RDONLY
  | .eperm => DOSE_RDONLY
  | .erofs => DOSE_RDONLY
  | .enotempty => DOSE_NOTEMPTY
  | .enospc => DOSE_DISKFULL
  | .eoverflow => DOSE_CANTSEEK
  | .eexist => DOSE_EXISTFILE
  | .other => DOSE_ILGPARM

/-- `op_rmdir` error switch (`remoteserv.c:250-260`): EINVAL overrides
to ISCURDIR. -/
def rmdir_err (e : HostErrno) : Int :=
  match e with
  | .einval => DOSE_ISCURDIR
  | _ => conv_errno e

/-- `op_rename` error switch (`remoteserv.c:286-296`): ENOTEMPTY
overrides to CANTREN. -/
def rename_err (e : HostErrno) : Int :=
  match e with
  | .enotempty => DOSE_CANTREN
  | _ => conv_errno e

/-- `op_mkdir` error switch (`remoteserv.c:219-229`): EEXIST overrides
to EXISTDIR. -/
def mkdir_err (e : HostErrno) : Int :=
  match e with
  | .eexist => DOSE_EXISTDIR
  | _ => conv_errno e

/-- `op_create` error switch (`remoteserv.c:819-828`): ENOSPC overrides
to DIRFULL. -/
def create_err (e : HostErrno) : Int :=
  match e with
  | .enospc => DOSE_DIRFULL
  | _ => conv_errno e

/-- `op_open` error switch (`remoteserv.c:871-880`): EINVAL overrides
to ILGARG. -/
def open_err (e : HostErrno) : Int :=
  match e with
  | .einval => DOSE_ILGARG
  | _ => conv_errno e

/-- **C6.** For every host errno value, the service maps it to the client
error code exactly per the table (ENOENT→-2, ENOTDIR→-3, EMFILE→-4,
EISDIR→-5, EBADF→-6, ENOMEM→-8, EFAULT→-9, ENOEXEC→-11,
ENAMETOOLONG→-13, EINVAL→-14, EXDEV→-15, EACCES/EPERM/EROFS→-19,
ENOTEMPTY→-21, ENOSPC→-23, EOVERFLOW→-25, EEXIST→-80, anything
else→-14), except that rmdir maps EINVAL to -16, rename maps ENOTEMPTY
to -22, mkdir maps EEXIST to -20, create maps ENOSPC to -24, and open
maps EINVAL to -12. -/
theorem errno_mapping_table :
    (∀ e : HostErrno, conv_errno e =
      match e with
      | .enoent => -2
      | .enotdir => -3
      | .emfile => -4
      | .eisdir => -5
      | .ebadf => -6
      | .enomem => -8
      | .efault => -9
      | .enoexec => -11
      | .enametoolong => -13
      | .einval => -14
      | .exdev => -15
      | .eacces => -19
      | .eperm => -19
      | .erofs => -19
      | .enotempty => -21
      | .enospc => -23
      | .eoverflow => -25
      | .eexist => -80
      | .other => -14) ∧
    (rmdir_err .einval = -16 ∧
      ∀ e : HostErrno, e ≠ .einval → rmdir_err e = conv_errno e) ∧
    (rename_err .enotempty = -22 ∧
      ∀ e : HostErrno, e ≠ .enotempty → rename_err e = conv_errno e) ∧
    (mkdir_err .eexist = -20 ∧
      ∀ e : HostErrno, e ≠ .eexist → mkdir_err e = conv_errno e) ∧
    (create_err .enospc = -24 ∧
      ∀ e : HostErrno, e ≠ .enospc → create_err e = conv_errno e) ∧
    (open_err .einval = -12 ∧
      ∀ e : HostErrno, e ≠ .einval → open_err e = conv_errno e) := by
  refine ⟨by decide, ⟨by decide, ?_⟩, ⟨by decide, ?_⟩, ⟨by decide, ?_⟩,
    ⟨by decide, ?_⟩, ⟨by decide, ?_⟩⟩ <;>
    · intro e he
      cases e <;> first | rfl | exact absurd rfl he

/-! ## Driver data cache

`struct dcache` and `dcache_flash` from `src/driver/serremote.c:266-287`
(one line) and `src/driver/remotedrv.c:135-158` (an array of
`CONFIG_NDCACHE` lines, each treated exactly as the single line).
`send_write`'s outcome is abstracted by a function `sendw` from the
payload written to the signed result. -/

/-- One cache line: owning FCB pointer (0 = free), starting file offset,
valid byte count, dirty flag, buffered bytes. -/
structure DCache where
  fcb : Nat
  offset : Nat
  len : Nat
  dirty : Bool
  data : List Nat
deriving DecidableEq, Repr

/-- 2^32, the modulus of the driver's 32-bit arithmetic. -/
def u32sz : Nat := 4294967296

/-- `dcache_flash` on a single line (`serremote.c:274-287`): if the line
belongs to `fcb` and is dirty, write it back (noting failure in the
result) and clear the dirty flag; if `clean`, free the line.  Returns the
new line, the result (0 or -1) and the payloads sent to the server. -/
def dcache_flash (c : DCache) (fcb : Nat) (clean : Bool) (sendw : List Nat → Int) :
    DCache × Int × List (List Nat) :=
  if c.fcb = fcb then
    let res : Int := if c.dirty = true ∧ sendw c.data < 0 then -1 else 0
    let sent : List (List Nat) := if c.dirty then [c.data] else []
    ({ c with dirty := false, fcb := if clean then 0 else c.fcb }, res, sent)
  else
    (c, 0, [])

/-- `dcache_flash` over the line array (`remotedrv.c:143-158`): every
line is flushed as above; the result is -1 as soon as any write-back
failed. -/
def dcache_flash_list (lines : List DCache) (fcb : Nat) (clean : Bool)
    (sendw : List Nat → Int) : List DCache × Int :=
  match lines with
  | [] => ([], 0)
  | l :: ls =>
    let f := dcache_flash l fcb clean sendw
    let rest := dcache_flash_list ls fcb clean sendw
    (f.1 :: rest.1, if f.2.1 < 0 ∨ rest.2 < 0 then -1 else 0)

/-- Flushing a line twice changes nothing and reports success: the
buffered data of a failed write-back is never retried. -/
theorem dcache_flash_idem (l : DCache) (fcb : Nat) (clean : Bool)
    (sendw : List Nat → Int) :
    dcache_flash (dcache_flash l fcb clean sendw).1 fcb clean sendw =
      ((dcache_flash l fcb clean sendw).1, 0, ([] : List (List Nat))) := by
  unfold dcache_flash
  by_cases h : l.fcb = fcb
  · simp only [h, if_true]
    by_cases hc : clean = true
    · subst hc
      simp only [if_true]
      by_cases h0 : (0 : Nat) = fcb
      · simp [← h0]
      · simp [h0]
    · have hc' : clean = false := by revert hc; cases clean <;> simp
      subst hc'
      simp [h]
  · simp [h]

/-- The result of a single-line flush, characterised. -/
theorem dcache_flash_res (l : DCache) (fcb : Nat) (clean : Bool)
    (sendw : List Nat → Int) :
    (dcache_flash l fcb clean sendw).2.1 =
      if l.fcb = fcb ∧ l.dirty = true ∧ sendw l.data < 0 then -1 else 0 := by
  unfold dcache_flash
  by_cases hf : l.fcb = fcb
  · by_cases hd : l.dirty = true ∧ sendw l.data < 0 <;> simp [hf, hd]
  · simp [hf]

/-- The result of the array flush, characterised: -1 exactly when the
write-back of some owned dirty line failed. -/
theorem dcache_flash_list_res (lines : List DCache) (fcb : Nat) (clean : Bool)
    (sendw : List Nat → Int) :
    (dcache_flash_list lines fcb clean sendw).2 =
      if ∃ l ∈ lines, l.fcb = fcb ∧ l.dirty = true ∧ sendw l.data < 0
      then -1 else 0 := by
  induction lines with
  | nil => simp [dcache_flash_list]
  | cons l ls ih =>
      simp only [dcache_flash_list, ih, dcache_flash_res]
      by_cases h1 : l.fcb = fcb ∧ l.dirty = true ∧ sendw l.data < 0 <;>
        by_cases h2 : ∃ x ∈ ls, x.fcb = fcb ∧ x.dirty = true ∧ sendw x.data < 0 <;>
        simp [h1, h2]

/-- **C10.** For every FCB, after any call to the driver's cache-flush
routine the cache line owned by that FCB has its dirty flag false even
when the server-side write of the buffered bytes failed: the buffered
data is discarded rather than retained for retry (a second flush writes
nothing back and succeeds), and the failure is visible only as the
flush's negative return value. -/
theorem dcache_flash_discards_on_failure (lines : List DCache) (fcb : Nat)
    (clean : Bool) (sendw : List Nat → Int) :
    (∀ p ∈ lines.zip (dcache_flash_list lines fcb clean sendw).1,
        p.1.fcb = fcb → p.2.dirty = false) ∧
    ((dcache_flash_list lines fcb clean sendw).2 = -1 ↔
        ∃ l ∈ lines, l.fcb = fcb ∧ l.dirty = true ∧ sendw l.data < 0) ∧
    (dcache_flash_list (dcache_flash_list lines fcb clean sendw).1 fcb clean sendw =
        ((dcache_flash_list lines fcb clean sendw).1, 0)) := by
  refine ⟨?_, ?_, ?_⟩
  · induction lines with
    | nil => simp [dcache_flash_list]
    | cons l ls ih =>
        intro p hp hfcb
        simp only [dcache_flash_list, List.zip_cons_cons, List.mem_cons] at hp
        rcases hp with rfl | hp
        · simp only at hfcb
          simp [dcache_flash, hfcb]
        · exact ih p hp hfcb
  · rw [dcache_flash_list_res]
    by_cases h : ∃ l ∈ lines, l.fcb = fcb ∧ l.dirty = true ∧ sendw l.data < 0 <;>
      simp [h]
  · induction lines with
    | nil => simp [dcache_flash_list]
    | cons l ls ih =>
        simp only [dcache_flash_list]
        rw [dcache_flash_idem]
        have hls :
            dcache_flash_list (dcache_flash_list ls fcb clean sendw).1 fcb clean
              sendw = ((dcache_flash_list ls fcb clean sendw).1, 0) := ih
        rw [hls]
        norm_num

/-! ## Service file-descriptor table and close

`fdinfo_t`, `fi_alloc`, `fi_free` and `op_close` from
`src/service/remoteserv.c:750-799` and `:896-917`.  A slot is free when
its key (the client FCB pointer) is 0; `FD_BADFD` is -1. -/

/-- One file-descriptor slot: client FCB pointer (0 = free) and host fd. -/
structure FdInfo where
  fcb : Nat
  fd : Int
deriving DecidableEq, Repr

/-- `fi_alloc(fcb, false)`: linear scan for the slot keyed by `fcb`
(`remoteserv.c:762-774`, the lookup part; no allocation). -/
def fi_lookup (tbl : List FdInfo) (fcb : Nat) : Option FdInfo :=
  tbl.find? (fun fi => fi.fcb == fcb)

/-- `fi_free` (`remoteserv.c:790-799`): clear the first slot keyed by
`fcb` (key := 0, fd := FD_BADFD) and stop. -/
def fi_free (tbl : List FdInfo) (fcb : Nat) : List FdInfo :=
  match tbl with
  | [] => []
  | fi :: t =>
      if fi.fcb = fcb then { fcb := 0, fd := -1 } :: t
      else fi :: fi_free t fcb

/-- `op_close` (`remoteserv.c:896-917`): unknown key answers BADF;
otherwise the host close runs (`closeErr` abstracts its failure) and in
both cases `fi_free` releases the slot. -/
def op_close (tbl : List FdInfo) (fcb : Nat) (closeErr : Option HostErrno) :
    List FdInfo × Int :=
  match fi_lookup tbl fcb with
  | none => (fi_free tbl fcb, DOSE_BADF)
  | some _ =>
      (fi_free tbl fcb,
        match closeErr with
        | none => 0
        | some e => conv_errno e)

/-- **C5.** For every FCB F, after close(F) returns success no
driver-side cache line is owned by F and no service-side file-descriptor
slot is keyed by F; and a close whose key is not present in the
service's files table returns BADF (-6).  (The driver's close handler
calls the cache flush with clean = true before sending the command;
the release holds whatever the close result.) -/
theorem close_releases_everything (lines : List DCache) (tbl : List FdInfo)
    (F : Nat) (sendw : List Nat → Int) (closeErr : Option HostErrno)
    (hF : F ≠ 0) (huniq : tbl.countP (fun fi => fi.fcb == F) ≤ 1) :
    (∀ l ∈ (dcache_flash_list lines F true sendw).1, l.fcb ≠ F) ∧
    (∀ fi ∈ (op_close tbl F closeErr).1, fi.fcb ≠ F) ∧
    (fi_lookup tbl F = none → (op_close tbl F closeErr).2 = DOSE_BADF) ∧
    DOSE_BADF = -6 := by
  refine ⟨?_, ?_, ?_, rfl⟩
  · induction lines with
    | nil => simp [dcache_flash_list]
    | cons l ls ih =>
        intro x hx
        simp only [dcache_flash_list, List.mem_cons] at hx
        rcases hx with rfl | hx
        · unfold dcache_flash
          by_cases hf : l.fcb = F <;> simp [hf, Ne.symm hF]
        · exact ih x hx
  · have hfree : ∀ t : List FdInfo, t.countP (fun fi => fi.fcb == F) ≤ 1 →
        ∀ fi ∈ fi_free t F, fi.fcb ≠ F := by
      intro t
      induction t with
      | nil => simp [fi_free]
      | cons a s ih =>
          intro hcnt fi hfi
          simp only [fi_free] at hfi
          by_cases ha : a.fcb = F
          · simp only [ha, if_true, List.mem_cons] at hfi
            rcases hfi with rfl | hfi
            · exact Ne.symm hF
            · have hs : s.countP (fun fi => fi.fcb == F) = 0 := by
                have := hcnt
                simp only [List.countP_cons, ha, beq_self_eq_true, if_true] at this
                omega
              intro hfx
              have : 0 < s.countP (fun fi => fi.fcb == F) :=
                List.countP_pos_iff.mpr ⟨fi, hfi, by simp [hfx]⟩
              omega
          · simp only [ha, if_false, List.mem_cons] at hfi
            rcases hfi with rfl | hfi
            · exact ha
            · refine ih ?_ fi hfi
              have := hcnt
              simp only [List.countP_cons, beq_iff_eq, ha, if_false] at this
              omega
    intro fi hfi
    have hmem : fi ∈ fi_free tbl F := by
      unfold op_close at hfi
      rcases hlk : fi_lookup tbl F with _ | v <;> simp [hlk] at hfi <;> exact hfi
    exact hfree tbl huniq fi hmem
  · intro hnone
    simp [op_close, hnone]

/-- Witness for C5: a two-slot table holding F = 5 and another key, one
cache line owned by F; the theorem applied at these concrete values. -/
theorem close_releases_everything_witness :
    (∀ l ∈ (dcache_flash_list
        [{ fcb := 5, offset := 0, len := 3, dirty := true, data := [1, 2, 3] }]
        5 true (fun _ => 0)).1, l.fcb ≠ 5) ∧
    (∀ fi ∈ (op_close [⟨5, 7⟩, ⟨9, 8⟩] 5 none).1, fi.fcb ≠ 5) ∧
    (fi_lookup [⟨5, 7⟩, ⟨9, 8⟩] 5 = none → (op_close [⟨5, 7⟩, ⟨9, 8⟩] 5 none).2 = DOSE_BADF) ∧
    DOSE_BADF = -6 :=
  close_releases_everything
    [{ fcb := 5, offset := 0, len := 3, dirty := true, data := [1, 2, 3] }]
    [⟨5, 7⟩, ⟨9, 8⟩] 5 (fun _ => 0) none (by decide) (by decide)

/-! ## Driver write dispatch (command 0x4d)

`interrupt` case 0x4d from `src/driver/serremote.c:642-686` (single
cache line; `remotedrv.c:490-536` is the same body per line).  The FCB
fields at offsets 6 (file position) and 64 (file size) are `pos` and
`size`; `req->status` on entry is the byte count, on exit the C variable
`len` (a `size_t`, hence a `Nat` below).  The coalescing test reproduces
the source's accidental assignment `*pp = dcache.offset + dcache.len`. -/

/-- Result of one write dispatch: cache line, FCB position and size,
the value written back to `req->status`, and the payloads handed to
`send_write` in order. -/
structure WriteOut where
  cache : DCache
  pos : Nat
  size : Nat
  status : Nat
  sent : List (List Nat)
deriving DecidableEq, Repr

/-- Driver write dispatch, translated from `serremote.c:642-686`. -/
def driverWrite (c : DCache) (fcb : Nat) (pos size : Nat) (data : List Nat)
    (sendw : List Nat → Int) : WriteOut :=
  let n := data.length
  -- the okout_write tail: advance position/size when len > 0
  let okout : DCache → Nat → Nat → Nat → List (List Nat) → WriteOut :=
    fun c' lenVar pos' size' sent =>
      if 0 < lenVar then
        let p2 := (pos' + lenVar) % u32sz
        { cache := c', pos := p2, size := if size' < p2 then p2 else size',
          status := lenVar, sent := sent }
      else
        { cache := c', pos := pos', size := size', status := lenVar, sent := sent }
  -- the uncached tail: len = send_write(...); if (len == 0) *sp = *pp
  let direct : DCache → List (List Nat) → WriteOut :=
    fun c' sent =>
      let lenVar := ((sendw data) % (u32sz : Int)).toNat
      okout c' lenVar pos (if lenVar = 0 then pos else size) (sent ++ [data])
  if 0 < n ∧ n < 1024 then
    if c.fcb = fcb then
      -- accidental assignment: *pp = dcache.offset + dcache.len
      let pos1 := (c.offset + c.len) % u32sz
      if pos1 ≠ 0 ∧ (pos1 + n) % u32sz ≤ (c.offset + 1024) % u32sz then
        okout { c with len := c.len + n, data := c.data ++ data } n pos1 size []
      else
        let f := dcache_flash c fcb true sendw
        if f.1.fcb = 0 then
          okout { fcb := fcb, offset := pos1, len := n, dirty := true, data := data }
            n pos1 size f.2.2
        else
          let g := dcache_flash f.1 fcb false sendw
          direct g.1 (f.2.2 ++ g.2.2)
    else if c.fcb = 0 then
      okout { fcb := fcb, offset := pos, len := n, dirty := true, data := data }
        n pos size []
    else
      let f := dcache_flash c fcb false sendw
      direct f.1 f.2.2
  else
    let f := dcache_flash c fcb false sendw
    direct f.1 f.2.2

/-- **C3** (evaluation at the failing input).  The FCB's position is 100
but its cache line ends at offset 16; the claim requires the dirty line
to be flushed and the write not to be coalesced, yet the dispatcher
appends to the line (no payload is sent to the server) and overwrites
the FCB position with 16 + 8 = 24: the coalescing test assigns
`*pp = dcache.offset + dcache.len` instead of comparing. -/
theorem driverWrite_coalesce_assignment_bug :
    driverWrite
        { fcb := 7, offset := 0, len := 16, dirty := true,
          data := List.replicate 16 1 }
        7 100 200 (List.replicate 8 2) (fun _ => 1) =
      { cache := { fcb := 7, offset := 0, len := 24, dirty := true,
                   data := List.replicate 16 1 ++ List.replicate 8 2 },
        pos := 24, size := 200, status := 8, sent := [] } := by
  decide

/-! ## Zero-length write = truncate (C4) -/

/-- `op_write` with `len == 0` (`remoteserv.c:972-978`) calls
`FUNC_FTRUNCATE(fd, pos)`: the host file, modelled as its byte list, is
cut to exactly `pos` bytes (zero-filled if extended, per POSIX). -/
def op_write_trunc (file : List Nat) (pos : Nat) : List Nat :=
  file.take pos ++ List.replicate (pos - file.length) 0

/-- **C4.** For every write request of length 0 that succeeds, the file
is truncated at the requested offset on the service side and the driver
sets the FCB's size field (offset 64) to the FCB's current file
position; the FCB position itself does not advance. -/
theorem write_zero_truncates (c : DCache) (fcb pos size : Nat)
    (sendw : List Nat → Int) (file : List Nat) (tpos : Nat)
    (h0 : sendw [] = 0) :
    (driverWrite c fcb pos size [] sendw).size = pos ∧
    (driverWrite c fcb pos size [] sendw).pos = pos ∧
    (driverWrite c fcb pos size [] sendw).status = 0 ∧
    (op_write_trunc file tpos).length = tpos ∧
    List.IsPrefix (file.take tpos) (op_write_trunc file tpos) := by
  have hdrv :
      driverWrite c fcb pos size [] sendw =
        { cache := (dcache_flash c fcb false sendw).1, pos := pos, size := pos,
          status := 0, sent := (dcache_flash c fcb false sendw).2.2 ++ [[]] } := by
    unfold driverWrite
    simp [h0]
  refine ⟨by rw [hdrv], by rw [hdrv], by rw [hdrv], ?_, ?_⟩
  · simp only [op_write_trunc, List.length_append, List.length_take,
      List.length_replicate]
    omega
  · exact ⟨List.replicate (tpos - file.length) 0, rfl⟩

/-- Witness for C4: a concrete flush-free zero-length write at position
42 on a 30-byte FCB, and truncation of a 3-byte host file to 2 bytes. -/
theorem write_zero_truncates_witness :
    (driverWrite { fcb := 0, offset := 0, len := 0, dirty := false, data := [] }
        7 42 30 [] (fun _ => 0)).size = 42 ∧
    (driverWrite { fcb := 0, offset := 0, len := 0, dirty := false, data := [] }
        7 42 30 [] (fun _ => 0)).pos = 42 ∧
    (driverWrite { fcb := 0, offset := 0, len := 0, dirty := false, data := [] }
        7 42 30 [] (fun _ => 0)).status = 0 ∧
    (op_write_trunc [1, 2, 3] 2).length = 2 ∧
    List.IsPrefix ([1, 2, 3].take 2) (op_write_trunc [1, 2, 3] 2) :=
  write_zero_truncates
    { fcb := 0, offset := 0, len := 0, dirty := false, data := [] }
    7 42 30 (fun _ => 0) [1, 2, 3] 2 rfl

/-! ## Driver seek dispatch (command 0x4e)

`interrupt` case 0x4e from `src/driver/serremote.c:688-714` and
`src/driver/remotedrv.c:538-563` (same logic).  The candidate position
is computed locally from the whence code and checked against the FCB
size; out-of-bounds fails locally with CANTSEEK.  An in-bounds seek,
however, sends the command to the server and stores the response's
result field into the FCB position and the status. -/

/-- Result of one seek dispatch: whether a command frame was sent to the
server, the FCB position afterwards, and `req->status`. -/
structure SeekOut where
  sent : Bool
  pos : Nat
  status : Int
deriving DecidableEq, Repr

/-- Driver seek dispatch, from `serremote.c:688-714`.  `resp` is the
`res` field of the server's reply (consulted only when a command is
sent); the FCB position is a 32-bit store of it. -/
def driverSeek (whence offset pos size : Nat) (resp : Int) : SeekOut :=
  let newpos := ((if whence = 0 then 0 else if whence = 1 then pos else size) +
    offset) % u32sz
  if size < newpos then
    { sent := false, pos := pos, status := DOSE_CANTSEEK }
  else
    { sent := true, pos := (resp % (u32sz : Int)).toNat, status := resp }

/-- **C2** (counterexample).  The claim says every seek is computed
entirely locally with no server round-trip; but the in-bounds seek
(whence 0, offset 3 on a file of size 5) sends a command frame to the
server. -/
theorem driverSeek_roundtrip_counterexample :
    (driverSeek 0 3 0 5 3).sent = true := by decide

/-- **C2** (amended).  The candidate position is computed locally as
offset / position+offset / size+offset (mod 2^32) per the whence code;
if it exceeds the FCB size the request fails locally with CANTSEEK (-25),
no command is sent and the FCB position is unchanged; otherwise the
driver performs a server round-trip and sets both the FCB position and
the status from the response's result field. -/
theorem driverSeek_amended (whence offset pos size : Nat) (resp : Int)
    (hw : whence ≤ 2) :
    ((match whence with
      | 0 => offset % u32sz
      | 1 => (pos + offset) % u32sz
      | _ => (size + offset) % u32sz) > size →
        driverSeek whence offset pos size resp =
          { sent := false, pos := pos, status := -25 }) ∧
    ((match whence with
      | 0 => offset % u32sz
      | 1 => (pos + offset) % u32sz
      | _ => (size + offset) % u32sz) ≤ size →
        driverSeek whence offset pos size resp =
          { sent := true, pos := (resp % (u32sz : Int)).toNat, status := resp }) := by
  have hcomp : ((if whence = 0 then 0 else if whence = 1 then pos else size) +
      offset) % u32sz =
      (match whence with
       | 0 => offset % u32sz
       | 1 => (pos + offset) % u32sz
       | _ => (size + offset) % u32sz) := by
    interval_cases whence <;> simp [Nat.add_comm]
  constructor
  · intro hgt
    unfold driverSeek
    rw [hcomp]
    simp [hgt, DOSE_CANTSEEK]
  · intro hle
    unfold driverSeek
    rw [hcomp]
    simp only [if_neg (not_lt.mpr hle)]

/-- Witness for the amended C2 at whence = 2 (seek to end-relative
offset 0 on a 5-byte file, server answering 5) and implicitly covering
the hypothesis whence ≤ 2. -/
theorem driverSeek_amended_witness :
    ((match (2 : Nat) with
      | 0 => (0 : Nat) % u32sz
      | 1 => (0 + 0) % u32sz
      | _ => (5 + 0) % u32sz) > 5 →
        driverSeek 2 0 0 5 5 = { sent := false, pos := 0, status := -25 }) ∧
    ((match (2 : Nat) with
      | 0 => (0 : Nat) % u32sz
      | 1 => (0 + 0) % u32sz
      | _ => (5 + 0) % u32sz) ≤ 5 →
        driverSeek 2 0 0 5 5 =
          { sent := true, pos := ((5 : Int) % (u32sz : Int)).toNat, status := 5 }) :=
  driverSeek_amended 2 0 0 5 5 (by decide)

/-! ## Directory-enumeration name matcher (`op_files`)

Pattern normalisation and the byte-by-byte comparison loop from
`op_files` in `src/service/remoteserv.c:455-586` and
`src/service/x68kremote.c:655-812`.  The two copies build the pattern
identically; they differ in the final acceptance test of the comparison
loop (`i < 21` in remoteserv.c, `i < 20` in x68kremote.c). -/

/-- First byte of a Shift-JIS double-byte sequence
(0x81-0x9F or 0xE0-0xEF). -/
def sjis1 (c : Nat) : Bool :=
  decide ((129 ≤ c ∧ c ≤ 159) ∨ (224 ≤ c ∧ c ≤ 239))

/-- ASCII lower-casing (C `tolower` in the C locale). -/
def toLowerB (c : Nat) : Nat := if 65 ≤ c ∧ c ≤ 90 then c + 32 else c

/-- The candidate byte as the comparison loop sees it:
`'A' <= c && c <= 'Z' ? c | f : c` with `f` either 0x20 or 0x00. -/
def lcComp (c f : Nat) : Nat := if 65 ≤ c ∧ c ≤ 90 then c ||| f else c

/-- Replace the trailing run of bytes satisfying `p` by NUL bytes
(the downward-scanning cleanup loops of `op_files`). -/
def clearTail (p : Nat → Bool) (l : List Nat) : List Nat :=
  (l.reverse.dropWhile p).reverse ++
    List.replicate (l.reverse.takeWhile p).length 0

/-- Lower-case a Shift-JIS byte string, passing the byte following a
double-byte first byte through unchanged (the pattern lower-casing loop
of `op_files`). -/
def lowerSJIS : List Nat → List Nat
  | [] => []
  | [c] => if sjis1 c then [c] else [toLowerB c]
  | c :: d :: rest =>
      if sjis1 c then c :: d :: lowerSJIS rest
      else toLowerB c :: lowerSJIS (d :: rest)

/-- The normalised 21-byte search pattern built by `op_files` from the
name buffer's `name1` (8 bytes), `name2` (10 bytes) and `ext` (3 bytes):
`name2` is filled with `'?'` when `name1` ends in `'?'` and `name2`
starts with NUL; trailing NUL/space runs become NUL; the result is
lower-cased with Shift-JIS awareness. -/
def normPattern (name1 name2 ext : List Nat) : List Nat :=
  let base := name1.take 8 ++
    (if name1.getD 7 0 = 63 ∧ name2.getD 0 0 = 0
     then List.replicate 10 63 else name2.take 10)
  lowerSJIS (clearTail (fun c => c == 0 || c == 32) base ++
    clearTail (fun c => c == 32) (ext.take 3))

/-- The Shift-JIS fold state before comparing byte `i`: 0x00 when byte
`i` of the candidate is the second byte of a double-byte sequence,
0x20 otherwise (the variable `f` of the comparison loop). -/
def fState (w2 : List Nat) : Nat → Nat
  | 0 => 32
  | i + 1 => if fState w2 i ≠ 0 ∧ sjis1 (w2.getD i 0) = true then 0 else 32

/-- The comparison loop of `op_files` with explicit fuel (the loop runs
`i` from 0 while `i < 21`, so the fuel is `21 - i`); returns the exit
value of `i`. -/
def cmpIterAux (w w2 : List Nat) : Nat → Nat → Nat → Nat
  | 0, _, i => i
  | k + 1, f, i =>
      if w.getD i 0 ≠ 63 ∧ lcComp (w2.getD i 0) f ≠ w.getD i 0 then i
      else cmpIterAux w w2 k
        (if f ≠ 0 ∧ sjis1 (w2.getD i 0) = true then 0 else 32) (i + 1)

/-- Exit index of the comparison loop started at byte `i`. -/
def cmpIter (w w2 : List Nat) (f i : Nat) : Nat := cmpIterAux w w2 (21 - i) f i

/-- Acceptance test of `remoteserv.c:583` (`if (i < 21) continue;`). -/
def nameMatch (w w2 : List Nat) : Bool := decide (¬ cmpIter w w2 32 0 < 21)

/-- Acceptance test of `x68kremote.c:809` (`if (i < 20) continue;`). -/
def nameMatchOld (w w2 : List Nat) : Bool := decide (¬ cmpIter w w2 32 0 < 20)

/-- Byte `i` of the candidate matches byte `i` of the pattern: the
pattern byte is `'?'`, or equals the candidate byte lower-cased unless
it is the second byte of a Shift-JIS sequence. -/
def matchByteOK (w w2 : List Nat) (i : Nat) : Prop :=
  w.getD i 0 = 63 ∨ lcComp (w2.getD i 0) (fState w2 i) = w.getD i 0

instance (w w2 : List Nat) (i : Nat) : Decidable (matchByteOK w w2 i) := by
  unfold matchByteOK
  infer_instance

/-- The comparison loop, characterised: started at `i` with the correct
fold state, it stops at the first non-matching byte (or at 21). -/
theorem cmpIterAux_spec (w w2 : List Nat) :
    ∀ k i, i + k = 21 →
      (i ≤ cmpIterAux w w2 k (fState w2 i) i ∧
        cmpIterAux w w2 k (fState w2 i) i ≤ 21) ∧
      (∀ j, i ≤ j → j < cmpIterAux w w2 k (fState w2 i) i → matchByteOK w w2 j) ∧
      (cmpIterAux w w2 k (fState w2 i) i < 21 →
        ¬ matchByteOK w w2 (cmpIterAux w w2 k (fState w2 i) i)) := by
  intro k
  induction k with
  | zero =>
      intro i hik
      have hi : i = 21 := by omega
      subst hi
      refine ⟨⟨le_refl _, le_refl _⟩, ?_, ?_⟩
      · intro j h1 h2
        simp only [cmpIterAux] at h2
        omega
      · intro h
        simp only [cmpIterAux] at h
        omega
  | succ k ih =>
      intro i hik
      by_cases hcond : w.getD i 0 ≠ 63 ∧ lcComp (w2.getD i 0) (fState w2 i) ≠ w.getD i 0
      · have hE : cmpIterAux w w2 (k + 1) (fState w2 i) i = i := by
          simp only [cmpIterAux]
          rw [if_pos hcond]
        rw [hE]
        refine ⟨⟨le_refl _, by omega⟩, ?_, ?_⟩
        · intro j h1 h2
          omega
        · intro _ hP
          rcases hP with h63 | heq
          · exact hcond.1 h63
          · exact hcond.2 heq
      · have hnext : (if fState w2 i ≠ 0 ∧ sjis1 (w2.getD i 0) = true then 0 else 32) =
            fState w2 (i + 1) := by
          simp [fState]
        have hE : cmpIterAux w w2 (k + 1) (fState w2 i) i =
            cmpIterAux w w2 k (fState w2 (i + 1)) (i + 1) := by
          simp only [cmpIterAux, if_neg hcond]
          rw [hnext]
        rw [hE]
        obtain ⟨⟨ih0, ih1⟩, ih2, ih3⟩ := ih (i + 1) (by omega)
        refine ⟨⟨by omega, ih1⟩, ?_, ih3⟩
        intro j h1 h2
        rcases Nat.eq_or_lt_of_le h1 with rfl | hlt
        · rw [not_and_or] at hcond
          rcases hcond with h | h
          · exact Or.inl (not_not.mp h)
          · exact Or.inr (not_not.mp h)
        · exact ih2 j hlt h2

/-- **C7.**  For every 21-byte normalized search pattern and candidate:
the remoteserv.c matcher accepts iff at every one of the 21 byte
positions the pattern byte is `'?'` or equals the candidate byte
compared case-insensitively (lower-casing the candidate only when it is
not the second byte of a Shift-JIS sequence); the pattern built from
part1 = "????????", empty part2 and ext = "???" matches every candidate;
and (the code bug) the older x68kremote.c copy also accepts a candidate
whose final byte mismatches, because its acceptance test reads
`i < 20` after a loop over 21 bytes. -/
theorem files_pattern_match :
    (∀ w w2 : List Nat, nameMatch w w2 = true ↔ ∀ i < 21, matchByteOK w w2 i) ∧
    (∀ w2 : List Nat,
      nameMatch (normPattern (List.replicate 8 63) (List.replicate 10 0)
        [63, 63, 63]) w2 = true) ∧
    (nameMatchOld (List.replicate 20 97 ++ [97])
        (List.replicate 20 97 ++ [98]) = true ∧
      nameMatch (List.replicate 20 97 ++ [97])
        (List.replicate 20 97 ++ [98]) = false ∧
      ¬ ∀ i < 21, matchByteOK (List.replicate 20 97 ++ [97])
        (List.replicate 20 97 ++ [98]) i) := by
  have hiff : ∀ w w2 : List Nat,
      nameMatch w w2 = true ↔ ∀ i < 21, matchByteOK w w2 i := by
    intro w w2
    obtain ⟨⟨hge, hle⟩, hall, hstop⟩ := cmpIterAux_spec w w2 21 0 (by omega)
    unfold nameMatch cmpIter
    rw [decide_eq_true_iff]
    have h32 : (32 : Nat) = fState w2 0 := rfl
    rw [h32, Nat.sub_zero]
    constructor
    · intro hE i hi
      exact hall i (Nat.zero_le i) (by omega)
    · intro hP hlt
      exact hstop hlt (hP _ hlt)
  refine ⟨hiff, ?_, by decide, by decide, by decide⟩
  intro w2
  rw [hiff]
  have hpat : normPattern (List.replicate 8 63) (List.replicate 10 0)
      [63, 63, 63] = List.replicate 21 63 := by decide
  rw [hpat]
  intro i hi
  have h63 : (List.replicate 21 63).getD i 0 = 63 := by
    interval_cases i <;> rfl
  unfold matchByteOK
  exact Or.inl h63

/-! ## Timeout report and recovery flood

The `longjmp` targets of the driver's receive path: `inp232c` raises on
timeout and `serin` raises on framing/overrun
(`src/driver/serremote.c:144-195`), all landing in the `setjmp` branch
of `interrupt` (`serremote.c:307-317`).  The next `serout`
(`serremote.c:109-142`) floods the line when the recovery flag is
armed. -/

/-- The request-header error fields and status written by the timeout
branch, together with the recovery flag it arms. -/
structure TimeoutReport where
  errh : Nat
  errl : Nat
  status : Int
  recovery : Bool
deriving DecidableEq, Repr

/-- The `setjmp` branch of `interrupt` (`serremote.c:307-317`):
`req->errh = 0x10; req->errl = 0x02; req->status = -1; recovery =
true`. -/
def com_timeout : TimeoutReport :=
  { errh := 0x10, errl := 0x02, status := -1, recovery := true }

/-- The five header bytes and payload of one frame as `serout` emits
them: `'Z' 'Z' 'X'`, the big-endian length, the payload. -/
def frameBytes (payload : List Nat) : List Nat :=
  zByte :: zByte :: xByte ::
    (payload.length / 256) :: (payload.length % 256) :: payload

/-- Result of one `serout` call: the bytes put on the wire, the inbound
bytes left unread, and the recovery flag afterwards. -/
structure SeroutOut where
  wire : List Nat
  inbound : List Nat
  recovery : Bool
deriving DecidableEq, Repr

/-- `serout` (`serremote.c:109-142`): in recovery mode first write 1030
`'Z'` bytes, discarding every inbound byte meanwhile and afterwards,
then clear the flag; in either case follow with the frame. -/
def serout (recovery : Bool) (inbound : List Nat) (payload : List Nat) :
    SeroutOut :=
  if recovery then
    { wire := List.replicate 1030 zByte ++ frameBytes payload,
      inbound := [], recovery := false }
  else
    { wire := frameBytes payload, inbound := inbound, recovery := recovery }

/-- **C8.** Whenever the driver's frame receive fails (timeout, framing,
or overrun), the current operation is reported to the client OS with
error high byte 0x10 and low byte 0x02 and status -1, recovery mode is
armed, and the next frame the driver sends is preceded by a flood of at
least 1030 'Z' bytes during which all inbound bytes are drained, after
which recovery mode is cleared. -/
theorem timeout_recovery_flood (inbound payload : List Nat) :
    com_timeout.errh = 0x10 ∧ com_timeout.errl = 0x02 ∧
    com_timeout.status = -1 ∧ com_timeout.recovery = true ∧
    (serout com_timeout.recovery inbound payload).wire.take 1030 =
      List.replicate 1030 zByte ∧
    (serout com_timeout.recovery inbound payload).wire.drop 1030 =
      frameBytes payload ∧
    (serout com_timeout.recovery inbound payload).inbound = [] ∧
    (serout com_timeout.recovery inbound payload).recovery = false := by
  have hlen : (List.replicate 1030 zByte).length = 1030 := List.length_replicate _ _
  refine ⟨rfl, rfl, rfl, rfl, ?_, ?_, rfl, rfl⟩
  · show (List.replicate 1030 zByte ++ frameBytes payload).take 1030 =
      List.replicate 1030 zByte
    exact List.take_left' hlen
  · show (List.replicate 1030 zByte ++ frameBytes payload).drop 1030 =
      frameBytes payload
    exact List.drop_left' hlen

/-! ## Dskfre -/

/-- Clamp a host byte count to 0x7FFFFFFF
(`total = total > 0x7fffffff ? 0x7fffffff : total`). -/
def clamp31 (x : Nat) : Nat := if x > 0x7fffffff then 0x7fffffff else x

/-- The `res_dskfre` record values (byte order elided; the 16-bit fields
are stored through `uint16_t`, the result through `uint32_t`). -/
structure DskfreRes where
  freeclu : Nat
  totalclu : Nat
  clusect : Nat
  sectsize : Nat
  res : Nat
deriving DecidableEq, Repr

/-- `op_dskfre` (`src/service/remoteserv.c:1047-1067` and
`src/service/x68kremote.c:1202-1233`): clamp the host filesystem's
total/free byte counts, divide by 32768 for the cluster counts, report
128 sectors/cluster and 1024 bytes/sector, return the clamped free
count as the primary result. -/
def op_dskfre (total free : Nat) : DskfreRes :=
  { freeclu := (clamp31 free / 32768) % 65536,
    totalclu := (clamp31 total / 32768) % 65536,
    clusect := 128,
    sectsize := 1024,
    res := clamp31 free % u32sz }

/-- **C9.** For every dskfre request, the service takes the host
filesystem's total and free byte counts, clamps each to 0x7FFFFFFF,
reports a geometry of exactly 128 sectors per cluster and 1024 bytes
per sector (128 KiB clusters) with free and total cluster counts
derived from the clamped byte counts (dividing by 32768, without
uint16 truncation), and returns the clamped free byte count as the
primary result field. -/
theorem dskfre_report (total free : Nat) :
    (op_dskfre total free).res = min free 0x7fffffff ∧
    (op_dskfre total free).freeclu = min free 0x7fffffff / 32768 ∧
    (op_dskfre total free).totalclu = min total 0x7fffffff / 32768 ∧
    (op_dskfre total free).clusect = 128 ∧
    (op_dskfre total free).sectsize = 1024 ∧
    (op_dskfre total free).clusect * (op_dskfre total free).sectsize = 131072 ∧
    (op_dskfre total free).freeclu < 65536 ∧
    (op_dskfre total free).totalclu < 65536 := by
  have hclamp : ∀ x : Nat, clamp31 x = min x 0x7fffffff := by
    intro x
    unfold clamp31
    split_ifs with h <;> omega
  have hdiv : ∀ x : Nat, clamp31 x / 32768 < 65536 := by
    intro x
    rw [Nat.div_lt_iff_lt_mul (by norm_num)]
    have := hclamp x
    omega
  have hres : ∀ x : Nat, clamp31 x % u32sz = min x 0x7fffffff := by
    intro x
    rw [Nat.mod_eq_of_lt]
    · exact hclamp x
    · have := hclamp x
      unfold u32sz
      omega
  have hmod : ∀ x : Nat, (clamp31 x / 32768) % 65536 = min x 0x7fffffff / 32768 := by
    intro x
    rw [Nat.mod_eq_of_lt (hdiv x), hclamp x]
  simp only [op_dskfre]
  exact ⟨hres free, hmod free, hmod total, by trivial, by trivial, by norm_num,
    by omega, by omega⟩

end X68kRemote
